import Mathlib

/-!
Shallow embedding of the configuration resolver and skill synchronizer of the
openclaw-browserbase plugin, together with proofs of the specified properties.

The embedding follows `src/config.ts`, `src/config-store.ts` and
`src/skills-sync.ts`. JavaScript runtime values are modelled by `JSValue`,
the process environment by a partial map `Env`, fallible functions by
`Except String`, and the filesystem (for the synchronizer) by the list of
file paths present.
-/

namespace Browserbase

/-- JavaScript runtime values, as far as the configuration parser inspects
them: strings, booleans, numbers, null, undefined, arrays and plain records
(objects as ordered key-value lists; JavaScript objects never repeat a key). -/
inductive JSValue where
  | str (s : String)
  | bool (b : Bool)
  | num (n : Int)
  | null
  | undefined
  | arr (elems : List JSValue)
  | record (fields : List (String × JSValue))

/-- The process environment: `some v` models a variable set to `v`
(possibly the empty string), `none` an unset variable. -/
abbrev Env := String → Option String

/-- config.ts line 9. -/
def DEFAULT_BASE_URL : String := "https://api.browserbase.com"

/-- config.ts line 11. -/
def ALLOWED_KEYS : List String :=
  ["apiKey", "projectId", "baseUrl", "promptOnStart", "autoSyncSkills"]

/-- config.ts lines 13-15: `typeof value === "object" && value !== null &&
!Array.isArray(value)`. Arrays and `null` are objects in JavaScript but are
excluded explicitly; every other non-object value fails the `typeof` test. -/
def isRecord : JSValue → Bool
  | .record _ => true
  | _ => false

/-- Property access `cfg[key]` on a plain record: the bound value, or
`undefined` when the key is absent. -/
def jsGet (fields : List (String × JSValue)) (key : String) : JSValue :=
  match fields.find? (fun f => f.1 == key) with
  | some f => f.2
  | none => .undefined

/-- The character class `\s` of JavaScript regular expressions (also the set
trimmed by `String.prototype.trim`): ASCII whitespace, no-break space, and the
Unicode space separators and line terminators. -/
def jsRegexWhitespace (c : Char) : Bool :=
  c = '\t' || c = '\n' || c.val = 11 || c.val = 12 || c = '\r' || c = ' ' ||
  c.val = 0xa0 || c.val = 0x1680 || (0x2000 ≤ c.val && c.val ≤ 0x200a) ||
  c.val = 0x2028 || c.val = 0x2029 || c.val = 0x202f || c.val = 0x205f ||
  c.val = 0x3000 || c.val = 0xfeff

/-- `String.prototype.trim`: strip leading and trailing whitespace. -/
def jsTrim (s : String) : String :=
  String.mk (((s.data.dropWhile jsRegexWhitespace).reverse.dropWhile jsRegexWhitespace).reverse)

/-- Scanner for config.ts lines 24-32 (`resolveEnvVars`): one left-to-right
pass of `String.prototype.replace` with the global pattern "dollar, open
brace, one or more non-close-brace characters, close brace", where the
replacement callback throws when the named variable is unset or empty
(`!envValue`). State `none`: scanning normally. State `some acc`: inside a
tentative placeholder whose name characters read so far are `acc`, reversed;
if the input ends, or the close brace arrives with an empty name, the pattern
did not match there and the characters are emitted literally, exactly as the
regular-expression engine would fail the match and move on. Replacement
values are not rescanned, matching `replace` semantics. -/
def resolveAux (env : Env) : Option (List Char) → List Char → Except String (List Char)
  | none, [] => .ok []
  | none, '$' :: '\x7b' :: rest => resolveAux env (some []) rest
  | none, c :: rest => do
      let r ← resolveAux env none rest
      .ok (c :: r)
  | some acc, [] => .ok ('$' :: '\x7b' :: acc.reverse)
  | some acc, '\x7d' :: rest =>
      if acc.isEmpty then do
        let r ← resolveAux env none rest
        .ok ('$' :: '\x7b' :: '\x7d' :: r)
      else
        let name := String.mk acc.reverse
        match env name with
        | some v =>
            if v = "" then
              .error ("Environment variable " ++ name ++ " is not set")
            else do
              let r ← resolveAux env none rest
              .ok (v.data ++ r)
        | none => .error ("Environment variable " ++ name ++ " is not set")
  | some acc, c :: rest => resolveAux env (some (c :: acc)) rest

/-- config.ts lines 24-32. -/
def resolveEnvVars (env : Env) (s : String) : Except String String :=
  (resolveAux env none s.data).map String.mk

/-- config.ts lines 34-45: non-strings and blank strings are absent;
otherwise the trimmed value with placeholders resolved (which may throw). -/
def parseOptionalString (env : Env) (value : JSValue) : Except String (Option String) :=
  match value with
  | .str s =>
      let trimmed := jsTrim s
      if trimmed = "" then .ok none
      else (resolveEnvVars env trimmed).map (fun r => some r)
  | _ => .ok none

/-- config.ts lines 47-58: non-strings and blank strings give the default
base URL; otherwise the trimmed value with placeholders resolved (which may
throw — no fallback for this field). -/
def parseBaseUrl (env : Env) (value : JSValue) : Except String String :=
  match value with
  | .str s =>
      let trimmed := jsTrim s
      if trimmed = "" then .ok DEFAULT_BASE_URL
      else resolveEnvVars env trimmed
  | _ => .ok DEFAULT_BASE_URL

/-- `Array.prototype.join(", ")`. -/
def joinComma : List String → String
  | [] => ""
  | [k] => k
  | k :: rest => k ++ ", " ++ joinComma rest

/-- The message thrown by `assertAllowedKeys` for the label used by
`parseConfig` (config.ts line 20 with line 64's label). -/
def unknownKeysMessage (unknown : List String) : String :=
  "browserbase config has unknown keys: " ++ joinComma unknown

/-- The keys of a record that are outside the allow-list
(config.ts line 18: `Object.keys(value).filter((key) => !ALLOWED_KEYS.includes(key))`). -/
def offendingKeys (fields : List (String × JSValue)) : List String :=
  (fields.map Prod.fst).filter (fun key => !(ALLOWED_KEYS.contains key))

/-- config.ts lines 17-22. -/
def assertAllowedKeys (fields : List (String × JSValue)) (label : String) : Except String Unit :=
  let unknown := offendingKeys fields
  if unknown.length > 0 then
    .error (label ++ " has unknown keys: " ++ joinComma unknown)
  else .ok ()

/-- The resolved configuration (config.ts lines 1-7). `baseUrl` is
non-nullable in the source type; the other four fields distinguish unset
(`none`) from every set value. -/
structure BrowserbaseConfig where
  apiKey : Option String
  projectId : Option String
  baseUrl : String
  promptOnStart : Option Bool
  autoSyncSkills : Option Bool
  deriving Repr, DecidableEq

/-- config.ts lines 70-80: `try { x = parseOptionalString(cfg[key]) ?? env[envKey] }
catch { x = env[envKey] }` — a successful parse that yields a value wins;
an absent parse or a thrown placeholder error both fall back to the direct
environment variable, read with no trimming or emptiness check. -/
def credentialFallback (env : Env) (fields : List (String × JSValue))
    (key envKey : String) : Option String :=
  match parseOptionalString env (jsGet fields key) with
  | .ok (some value) => some value
  | .ok none => env envKey
  | .error _ => env envKey

/-- config.ts lines 86-87: `typeof cfg[key] === "boolean" ? cfg[key] : undefined`. -/
def boolField (fields : List (String × JSValue)) (key : String) : Option Bool :=
  match jsGet fields key with
  | .bool b => some b
  | _ => none

/-- config.ts lines 60-89 (`parseConfig`). -/
def parseConfig (env : Env) (raw : JSValue) : Except String BrowserbaseConfig := do
  let fields := match raw with
    | JSValue.record fs => fs
    | _ => []
  if fields.length > 0 then
    assertAllowedKeys fields "browserbase config"
  let apiKey := credentialFallback env fields "apiKey" "BROWSERBASE_API_KEY"
  let projectId := credentialFallback env fields "projectId" "BROWSERBASE_PROJECT_ID"
  let baseUrl ← parseBaseUrl env (jsGet fields "baseUrl")
  return { apiKey := apiKey, projectId := projectId, baseUrl := baseUrl,
           promptOnStart := boolField fields "promptOnStart",
           autoSyncSkills := boolField fields "autoSyncSkills" }

/-- config.ts lines 91-99 (`mergeConfig`): nullish coalescing field by field.
`baseUrl` is a non-nullable string in the source type, so
`primary.baseUrl ?? fallback.baseUrl` always yields `primary.baseUrl`. -/
def mergeConfig (primary fallback : BrowserbaseConfig) : BrowserbaseConfig :=
  { apiKey := primary.apiKey.orElse (fun _ => fallback.apiKey)
    projectId := primary.projectId.orElse (fun _ => fallback.projectId)
    baseUrl := primary.baseUrl
    promptOnStart := primary.promptOnStart.orElse (fun _ => fallback.promptOnStart)
    autoSyncSkills := primary.autoSyncSkills.orElse (fun _ => fallback.autoSyncSkills) }

/-- config-store.ts lines 78-88 (`maskSecret`): `undefined` and the empty
string are falsy, hence "not set"; short values become asterisks; long
values keep the first four and last four characters. -/
def maskSecret (value : Option String) : String :=
  match value with
  | none => "not set"
  | some v =>
      if v = "" then "not set"
      else if v.length ≤ 8 then String.mk (List.replicate (max 4 v.length) '*')
      else String.mk (v.data.take 4) ++ "..." ++ String.mk (v.data.drop (v.length - 4))

/-- Character-wise `String.prototype.replace` with a global single-character
pattern `p` and a fixed replacement `r`. -/
def replaceChar (p : Char) (r : List Char) : List Char → List Char
  | [] => []
  | c :: rest => (if c = p then r else [c]) ++ replaceChar p r rest

/-- The escape a single character receives in a dotenv double-quoted value:
backslash, double quote, newline and carriage return gain a backslash prefix
(the latter two as the two-character sequences backslash-n, backslash-r);
every other character is kept as is. -/
def dotenvEscChar (c : Char) : List Char :=
  if c = '\\' then ['\\', '\\']
  else if c = '"' then ['\\', '"']
  else if c = '\n' then ['\\', 'n']
  else if c = '\r' then ['\\', 'r']
  else [c]

/-- A single simultaneous pass of `dotenvEscChar` over a character list: the
form the four sequential substitutions of config-store.ts line 97 must equal
when none of them double-escapes the output of an earlier one. -/
def escapeOnePass : List Char → List Char
  | [] => []
  | c :: rest => dotenvEscChar c ++ escapeOnePass rest

/-- The test of config-store.ts line 96: the character class of whitespace,
double quote, single quote, hash, equals and backslash, together with the
explicit newline and carriage-return checks. -/
def needsDotenvQuoting (v : String) : Bool :=
  (v.data.any (fun c =>
      jsRegexWhitespace c || c = '"' || c = '\'' || c = '#' || c = '=' || c = '\\'))
    || v.data.contains '\n' || v.data.contains '\r'

/-- config-store.ts lines 94-100 (`dotenvEscape`): when quoting is needed,
wrap in double quotes after replacing backslashes, then double quotes, then
newlines, then carriage returns (innermost replacement first). -/
def dotenvEscape (v : String) : String :=
  if needsDotenvQuoting v then
    "\"" ++ String.mk
      (replaceChar '\r' ['\\', 'r']
        (replaceChar '\n' ['\\', 'n']
          (replaceChar '"' ['\\', '"']
            (replaceChar '\\' ['\\', '\\'] v.data)))) ++ "\""
  else v

/-! ### Skill synchronizer (per-file variant, skills-sync.ts of the raw-file design) -/

/-- skills-sync.ts line 6. -/
def SKILLS_REPO_RAW_BASE : String := "https://raw.githubusercontent.com/browserbase/skills"

/-- skills-sync.ts line 7. -/
def DEFAULT_SKILLS_REF : String := "main"

/-- skills-sync.ts lines 9-30: source path in the upstream repository and
destination path relative to the target root, for each of the five files. -/
def SKILL_FILE_MAP : List (String × String) :=
  [ ("skills/browser-automation/SKILL.md", "browser-automation/SKILL.md"),
    ("skills/browser-automation/EXAMPLES.md", "browser-automation/EXAMPLES.md"),
    ("skills/browser-automation/REFERENCE.md", "browser-automation/REFERENCE.md"),
    ("skills/browser-automation/setup.json", "browser-automation/setup.json"),
    ("skills/functions/SKILL.md", "functions/SKILL.md") ]

/-- `path.join` on already-normalized relative segments. -/
def pathJoin (a b : String) : String := a ++ "/" ++ b

/-- skills-sync.ts lines 50-52 (`expectedSkillFiles`). -/
def expectedSkillFiles (targetRoot : String) : List String :=
  SKILL_FILE_MAP.map (fun entry => pathJoin targetRoot entry.2)

/-- skills-sync.ts lines 54-56 (`hasBrowserbaseSkills`, per-file design):
`fsExists` abstracts `fs.existsSync`. -/
def hasBrowserbaseSkills (fsExists : String → Bool) (targetRoot : String) : Bool :=
  (expectedSkillFiles targetRoot).all fsExists

/-- Archive-design skills-sync.ts line 23. -/
def REQUIRED_SKILL_DIRS : List String := ["browser", "functions"]

/-- Archive-design skills-sync.ts lines 43-47 (`hasBrowserbaseSkills`):
every required skill subdirectory must contain its SKILL.md marker. -/
def hasBrowserbaseSkillsArchive (fsExists : String → Bool) (targetRoot : String) : Bool :=
  REQUIRED_SKILL_DIRS.all (fun dir => fsExists (pathJoin (pathJoin targetRoot dir) "SKILL.md"))

/-- The parts of a fetch `Response` the synchronizer reads: the `ok` flag,
the numeric status, and the body text. -/
structure Response where
  ok : Bool
  status : Nat
  body : String

/-- skills-sync.ts lines 73-79 (`normalizeRef`). -/
def normalizeRef (ref : Option String) : String :=
  match ref with
  | some r => if jsTrim r = "" then DEFAULT_SKILLS_REF else jsTrim r
  | none => DEFAULT_SKILLS_REF

/-- skills-sync.ts line 104: the raw download URL for a source path at a ref. -/
def rawSkillUrl (ref sourcePath : String) : String :=
  SKILLS_REPO_RAW_BASE ++ "/" ++ ref ++ "/" ++ sourcePath

/-- skills-sync.ts lines 66-78 (`downloadText`): a non-ok response rejects
with a message carrying the HTTP status code and the URL. -/
def downloadText (fetchImpl : String → Response) (url : String) : Except String String :=
  let response := fetchImpl url
  if !response.ok then .error ("HTTP " ++ toString response.status ++ " for " ++ url)
  else .ok response.body

/-- The filesystem as the list of file paths currently present. -/
abbrev FileSystem := List String

/-- skills-sync.ts lines 25-29. -/
structure SkillSyncResult where
  targetRoot : String
  ref : String
  filesWritten : List String
  deriving Repr, DecidableEq

/-- The loop of skills-sync.ts lines 103-114: for each map entry in order,
fetch the raw URL, reject on HTTP error or blank body, else write the file
(`writeFileAtomic` nets to the destination path becoming present) and record
it; the filesystem reached so far is kept when a later entry fails. -/
def syncLoop (fetchImpl : String → Response) (ref targetRoot : String) :
    List (String × String) → FileSystem → List String →
      FileSystem × Except String (List String)
  | [], fs, written => (fs, .ok written)
  | entry :: rest, fs, written =>
      let sourceUrl := rawSkillUrl ref entry.1
      match downloadText fetchImpl sourceUrl with
      | .error e => (fs, .error e)
      | .ok content =>
          if jsTrim content = "" then
            (fs, .error ("Received empty content for " ++ sourceUrl))
          else
            let destination := pathJoin targetRoot entry.2
            syncLoop fetchImpl ref targetRoot rest (destination :: fs)
              (written ++ [destination])

/-- skills-sync.ts lines 88-121 (`syncBrowserbaseSkills`, per-file design),
with the target root taken as already resolved: returns the filesystem after
the call together with the result or the rejection message. -/
def syncBrowserbaseSkills (fetchImpl : String → Response) (targetRoot : String)
    (ref : Option String) (fs : FileSystem) :
    FileSystem × Except String SkillSyncResult :=
  let normalizedRef := normalizeRef ref
  match syncLoop fetchImpl normalizedRef targetRoot SKILL_FILE_MAP fs [] with
  | (finalFs, .ok written) => (finalFs, .ok ⟨targetRoot, normalizedRef, written⟩)
  | (finalFs, .error e) => (finalFs, .error e)

/-! ### Concrete inputs used by the witnesses and counterexamples -/

/-- An environment with every variable unset. -/
def envNone : Env := fun _ => none

/-- An environment supplying only the two direct credential variables. -/
def envDirect : Env := fun k =>
  if k = "BROWSERBASE_API_KEY" then some "direct_key"
  else if k = "BROWSERBASE_PROJECT_ID" then some "direct_proj"
  else none

/-- An environment in which only the API-key variable is set, to the empty
string. -/
def envEmptyApiOnly : Env := fun k =>
  if k = "BROWSERBASE_API_KEY" then some "" else none

/-- An environment in which only the project-id variable is set, to
whitespace. -/
def envWsProjOnly : Env := fun k =>
  if k = "BROWSERBASE_PROJECT_ID" then some "   " else none

/-- The raw URL of the third skill file at ref main. -/
def badThirdUrl : String :=
  "https://raw.githubusercontent.com/browserbase/skills/main/skills/browser-automation/REFERENCE.md"

/-- A fetch stub that answers 404 for the third skill file and succeeds with
non-blank content everywhere else. -/
def fetchFailThird : String → Response := fun url =>
  if url = badThirdUrl then ⟨false, 404, ""⟩ else ⟨true, 200, "content"⟩

/-! ### Helper lemmas -/

theorem joinComma_contains (k : String) (l : List String) (hk : k ∈ l) :
    ∃ s t, (joinComma l).data = s ++ k.data ++ t := by
  induction l with
  | nil => cases hk
  | cons a rest ih =>
      cases rest with
      | nil =>
          rcases List.mem_singleton.mp hk with rfl
          exact ⟨[], [], by simp [joinComma]⟩
      | cons b rest2 =>
          rcases List.mem_cons.mp hk with rfl | hk2
          · refine ⟨[], (", " ++ joinComma (b :: rest2)).data, ?_⟩
            show (joinComma (k :: b :: rest2)).data = k.data ++ (", " ++ joinComma (b :: rest2)).data
            simp [joinComma, String.data_append]
          · rcases ih hk2 with ⟨s, t, hst⟩
            refine ⟨(a ++ ", ").data ++ s, t, ?_⟩
            show (joinComma (a :: b :: rest2)).data = (a ++ ", ").data ++ s ++ k.data ++ t
            simp [joinComma, String.data_append, hst]

theorem assertAllowedKeys_ok (fields : List (String × JSValue))
    (h : offendingKeys fields = []) :
    assertAllowedKeys fields "browserbase config" = Except.ok () := by
  unfold assertAllowedKeys
  rw [h]
  rfl

theorem assertAllowedKeys_error (fields : List (String × JSValue))
    (h : offendingKeys fields ≠ []) :
    assertAllowedKeys fields "browserbase config" =
      Except.error (unknownKeysMessage (offendingKeys fields)) := by
  unfold assertAllowedKeys
  rw [if_pos (List.length_pos.mpr h)]
  have hlabel : "browserbase config" ++ " has unknown keys: " =
      "browserbase config has unknown keys: " := by decide
  unfold unknownKeysMessage
  rw [String.append_assoc, ← hlabel, String.append_assoc]

/-- `parseConfig` on a record input: unknown keys abort with the fixed
message; otherwise the result is the field-by-field parse, failing exactly
when `parseBaseUrl` fails. -/
theorem parseConfig_record (env : Env) (fields : List (String × JSValue)) :
    parseConfig env (JSValue.record fields) =
      if offendingKeys fields = [] then
        (parseBaseUrl env (jsGet fields "baseUrl")).map (fun baseUrl =>
          { apiKey := credentialFallback env fields "apiKey" "BROWSERBASE_API_KEY"
            projectId := credentialFallback env fields "projectId" "BROWSERBASE_PROJECT_ID"
            baseUrl := baseUrl
            promptOnStart := boolField fields "promptOnStart"
            autoSyncSkills := boolField fields "autoSyncSkills" })
      else Except.error (unknownKeysMessage (offendingKeys fields)) := by
  by_cases h : offendingKeys fields = []
  · rw [if_pos h]
    show (do
        if fields.length > 0 then assertAllowedKeys fields "browserbase config"
        let baseUrl ← parseBaseUrl env (jsGet fields "baseUrl")
        return { apiKey := credentialFallback env fields "apiKey" "BROWSERBASE_API_KEY"
                 projectId := credentialFallback env fields "projectId" "BROWSERBASE_PROJECT_ID"
                 baseUrl := baseUrl
                 promptOnStart := boolField fields "promptOnStart"
                 autoSyncSkills := boolField fields "autoSyncSkills" } :
        Except String BrowserbaseConfig) = _
    rw [assertAllowedKeys_ok fields h]
    cases hb : parseBaseUrl env (jsGet fields "baseUrl") with
    | ok u => split <;> simp [hb, Except.map, Bind.bind, Except.bind, Pure.pure, Except.pure]
    | error e => split <;> simp [hb, Except.map, Bind.bind, Except.bind, Pure.pure, Except.pure]
  · rw [if_neg h]
    have hne : fields ≠ [] := by
      intro hnil
      exact h (by simp [offendingKeys, hnil])
    show (do
        if fields.length > 0 then assertAllowedKeys fields "browserbase config"
        let baseUrl ← parseBaseUrl env (jsGet fields "baseUrl")
        return { apiKey := credentialFallback env fields "apiKey" "BROWSERBASE_API_KEY"
                 projectId := credentialFallback env fields "projectId" "BROWSERBASE_PROJECT_ID"
                 baseUrl := baseUrl
                 promptOnStart := boolField fields "promptOnStart"
                 autoSyncSkills := boolField fields "autoSyncSkills" } :
        Except String BrowserbaseConfig) = _
    rw [if_pos (List.length_pos.mpr hne), assertAllowedKeys_error fields h]
    rfl

theorem parseBaseUrl_isOk (env : Env) (fields : List (String × JSValue))
    (hres : ∀ p ∈ fields, ∀ s, p.2 = JSValue.str s →
      (resolveEnvVars env (jsTrim s)).isOk = true) :
    (parseBaseUrl env (jsGet fields "baseUrl")).isOk = true := by
  unfold jsGet
  cases hf : fields.find? (fun f => f.1 == "baseUrl") with
  | none => rfl
  | some p =>
      have hp : p ∈ fields := List.mem_of_find?_eq_some hf
      show (parseBaseUrl env p.2).isOk = true
      cases hv : p.2 with
      | str s =>
          by_cases ht : jsTrim s = ""
          · simp only [parseBaseUrl, if_pos ht]
            rfl
          · simp only [parseBaseUrl, if_neg ht]
            exact hres p hp s hv
      | bool b => rfl
      | num n => rfl
      | null => rfl
      | undefined => rfl
      | arr elems => rfl
      | record fs => rfl

/-! ### The claims -/

/-- C1: for every non-empty record input with at least one key outside the
allow-list, `parseConfig` throws the unknown-keys error — regardless of any
placeholder, since the key check runs before any resolution — and the
message names every offending key; and for record inputs whose string fields
contain no unresolved placeholders, the unknown-key error is the only way
parsing fails: with every key allowed, parsing succeeds. -/
theorem c1_unknown_keys_sole_failure (env : Env) (fields : List (String × JSValue)) :
    (offendingKeys fields ≠ [] →
      parseConfig env (JSValue.record fields) =
        Except.error (unknownKeysMessage (offendingKeys fields)) ∧
      ∀ k ∈ offendingKeys fields, ∃ s t,
        (unknownKeysMessage (offendingKeys fields)).data = s ++ k.data ++ t) ∧
    ((∀ p ∈ fields, ∀ s, p.2 = JSValue.str s →
        (resolveEnvVars env (jsTrim s)).isOk = true) →
      offendingKeys fields = [] →
      (parseConfig env (JSValue.record fields)).isOk = true) := by
  constructor
  · intro h
    constructor
    · rw [parseConfig_record, if_neg h]
    · intro k hk
      rcases joinComma_contains k (offendingKeys fields) hk with ⟨s, t, hst⟩
      exact ⟨("browserbase config has unknown keys: " : String).data ++ s, t, by
        simp [unknownKeysMessage, String.data_append, hst]⟩
  · intro hres h
    rw [parseConfig_record, if_pos h]
    cases hb : parseBaseUrl env (jsGet fields "baseUrl") with
    | ok u => rfl
    | error e =>
        have := parseBaseUrl_isOk env fields hres
        rw [hb] at this
        cases this

/-- Witness for C1 at concrete inputs: an unknown key "nope" is fatal even
alongside a failing placeholder in `apiKey`, with the key's name carried in
the message; and with every key allowed and no placeholder, parsing
succeeds. -/
theorem c1_witness :
    parseConfig envNone (JSValue.record
        [("nope", JSValue.bool true), ("apiKey", JSValue.str "${MISSING_VAR}")]) =
      Except.error (unknownKeysMessage (offendingKeys
        [("nope", JSValue.bool true), ("apiKey", JSValue.str "${MISSING_VAR}")])) ∧
    (parseConfig envNone (JSValue.record [("apiKey", JSValue.str "ok_key")])).isOk = true :=
  ⟨((c1_unknown_keys_sole_failure envNone
        [("nope", JSValue.bool true), ("apiKey", JSValue.str "${MISSING_VAR}")]).1
      (by decide)).1,
   (c1_unknown_keys_sole_failure envNone [("apiKey", JSValue.str "ok_key")]).2
     (by
       intro p hp s hs
       rcases List.mem_singleton.mp hp with rfl
       simp only [JSValue.str.injEq] at hs
       subst hs
       decide)
     (by decide)⟩

/-- C9: every non-record input is treated as the empty record, so
`parseConfig` never throws and returns the default configuration: the
default base URL, unset booleans, and the credentials supplied by the direct
environment variables. -/
theorem c9_non_record_default (env : Env) (raw : JSValue) (h : isRecord raw = false) :
    parseConfig env raw =
      Except.ok { apiKey := env "BROWSERBASE_API_KEY"
                  projectId := env "BROWSERBASE_PROJECT_ID"
                  baseUrl := DEFAULT_BASE_URL
                  promptOnStart := none
                  autoSyncSkills := none } := by
  cases raw with
  | str s => rfl
  | bool b => rfl
  | num n => rfl
  | null => rfl
  | undefined => rfl
  | arr elems => rfl
  | record fs => exact absurd h (by simp [isRecord])

/-- Witness for C9 at the concrete inputs `null`, a string and a number,
with every environment variable unset. -/
theorem c9_witness :
    parseConfig envNone JSValue.null =
      Except.ok { apiKey := none, projectId := none, baseUrl := DEFAULT_BASE_URL,
                  promptOnStart := none, autoSyncSkills := none } ∧
    parseConfig envNone (JSValue.num 42) =
      Except.ok { apiKey := none, projectId := none, baseUrl := DEFAULT_BASE_URL,
                  promptOnStart := none, autoSyncSkills := none } :=
  ⟨c9_non_record_default envNone JSValue.null (by decide),
   c9_non_record_default envNone (JSValue.num 42) (by decide)⟩

/-- C4: `mergeConfig` takes primary's value whenever the field is defined
and fallback's otherwise; `baseUrl` is always defined, so primary's always
wins; for the two booleans an explicit `false` in primary counts as defined
and overrides an explicit `true` in fallback, and only true absence falls
through. -/
theorem c4_merge_field_rules (p f : BrowserbaseConfig) :
    ((∀ a, p.apiKey = some a → (mergeConfig p f).apiKey = some a) ∧
      (p.apiKey = none → (mergeConfig p f).apiKey = f.apiKey)) ∧
    ((∀ a, p.projectId = some a → (mergeConfig p f).projectId = some a) ∧
      (p.projectId = none → (mergeConfig p f).projectId = f.projectId)) ∧
    (mergeConfig p f).baseUrl = p.baseUrl ∧
    ((∀ b, p.promptOnStart = some b → (mergeConfig p f).promptOnStart = some b) ∧
      (p.promptOnStart = none → (mergeConfig p f).promptOnStart = f.promptOnStart) ∧
      (p.promptOnStart = some false → f.promptOnStart = some true →
        (mergeConfig p f).promptOnStart = some false)) ∧
    ((∀ b, p.autoSyncSkills = some b → (mergeConfig p f).autoSyncSkills = some b) ∧
      (p.autoSyncSkills = none → (mergeConfig p f).autoSyncSkills = f.autoSyncSkills) ∧
      (p.autoSyncSkills = some false → f.autoSyncSkills = some true →
        (mergeConfig p f).autoSyncSkills = some false)) := by
  refine ⟨⟨fun a h => ?_, fun h => ?_⟩, ⟨fun a h => ?_, fun h => ?_⟩, rfl,
      ⟨fun b h => ?_, fun h => ?_, fun h h2 => ?_⟩,
      ⟨fun b h => ?_, fun h => ?_, fun h h2 => ?_⟩⟩ <;>
    simp [mergeConfig, Option.orElse, h]

/-- Witness for C4 at concrete configurations: an explicit `false` in
primary overrides `true` in fallback, and an unset field falls through. -/
theorem c4_witness :
    (mergeConfig ⟨some "a", none, "u", some false, none⟩
        ⟨some "b", some "q", "v", some true, some true⟩).promptOnStart = some false ∧
    (mergeConfig ⟨some "a", none, "u", some false, none⟩
        ⟨some "b", some "q", "v", some true, some true⟩).projectId = some "q" ∧
    (mergeConfig ⟨some "a", none, "u", some false, none⟩
        ⟨some "b", some "q", "v", some true, some true⟩).apiKey = some "a" :=
  ⟨(c4_merge_field_rules ⟨some "a", none, "u", some false, none⟩
        ⟨some "b", some "q", "v", some true, some true⟩).2.2.2.1.2.2 rfl rfl,
   (c4_merge_field_rules ⟨some "a", none, "u", some false, none⟩
        ⟨some "b", some "q", "v", some true, some true⟩).2.1.2 rfl,
   (c4_merge_field_rules ⟨some "a", none, "u", some false, none⟩
        ⟨some "b", some "q", "v", some true, some true⟩).1.1 "a" rfl⟩

/-- C2 fails as stated: a primary source that left `baseUrl` unconfigured
still parses to the built-in default, a defined string, and `mergeConfig`
always takes primary's `baseUrl`; so the fallback source's explicitly
configured base URL does not appear in the merged result. -/
theorem c2_counterexample :
    parseConfig envNone (JSValue.record []) =
      Except.ok ⟨none, none, DEFAULT_BASE_URL, none, none⟩ ∧
    parseConfig envNone
        (JSValue.record [("baseUrl", JSValue.str "https://fallback.example.com")]) =
      Except.ok ⟨none, none, "https://fallback.example.com", none, none⟩ ∧
    (mergeConfig ⟨none, none, DEFAULT_BASE_URL, none, none⟩
        ⟨none, none, "https://fallback.example.com", none, none⟩).baseUrl ≠
      "https://fallback.example.com" :=
  ⟨rfl, rfl, by decide⟩

/-- C2 (amended): the no-masking rule holds for the four optional fields —
an unset field in the higher-precedence configuration never hides the
lower-precedence value — but not for `baseUrl`: parsing always produces a
concrete base URL (the built-in default when unconfigured) and the merge
always keeps primary's. -/
theorem c2_amended_no_masking (p f : BrowserbaseConfig) (env : Env) :
    (p.apiKey = none → (mergeConfig p f).apiKey = f.apiKey) ∧
    (p.projectId = none → (mergeConfig p f).projectId = f.projectId) ∧
    (p.promptOnStart = none → (mergeConfig p f).promptOnStart = f.promptOnStart) ∧
    (p.autoSyncSkills = none → (mergeConfig p f).autoSyncSkills = f.autoSyncSkills) ∧
    (mergeConfig p f).baseUrl = p.baseUrl ∧
    (∀ cfg, parseConfig env (JSValue.record []) = Except.ok cfg →
      cfg.baseUrl = DEFAULT_BASE_URL) := by
  refine ⟨?_, ?_, ?_, ?_, rfl, ?_⟩
  · intro h; simp [mergeConfig, Option.orElse, h]
  · intro h; simp [mergeConfig, Option.orElse, h]
  · intro h; simp [mergeConfig, Option.orElse, h]
  · intro h; simp [mergeConfig, Option.orElse, h]
  · intro cfg h
    have hdef : parseConfig env (JSValue.record []) =
        Except.ok { apiKey := env "BROWSERBASE_API_KEY"
                    projectId := env "BROWSERBASE_PROJECT_ID"
                    baseUrl := DEFAULT_BASE_URL
                    promptOnStart := none, autoSyncSkills := none } := rfl
    rw [hdef] at h
    cases h
    rfl

/-- Witness for C2 (amended) at concrete configurations. -/
theorem c2_amended_witness :
    (mergeConfig ⟨none, none, DEFAULT_BASE_URL, none, none⟩
        ⟨some "k", some "q", "https://fallback.example.com", some true, some false⟩).apiKey =
      some "k" ∧
    (mergeConfig ⟨none, none, DEFAULT_BASE_URL, none, none⟩
        ⟨some "k", some "q", "https://fallback.example.com", some true, some false⟩).baseUrl =
      DEFAULT_BASE_URL :=
  ⟨(c2_amended_no_masking ⟨none, none, DEFAULT_BASE_URL, none, none⟩
        ⟨some "k", some "q", "https://fallback.example.com", some true, some false⟩
        envNone).1 rfl,
   (c2_amended_no_masking ⟨none, none, DEFAULT_BASE_URL, none, none⟩
        ⟨some "k", some "q", "https://fallback.example.com", some true, some false⟩
        envNone).2.2.2.2.1⟩

/-- C5: placeholder-resolution failures are swallowed for the credential
fields — the field falls back to the direct environment variable and the
parse succeeds (provided nothing else fails) — while a failing placeholder
in `baseUrl` propagates and makes the whole parse fail. -/
theorem c5_placeholder_failure_asymmetry (env : Env) (fields : List (String × JSValue))
    (hkeys : offendingKeys fields = []) :
    ((parseOptionalString env (jsGet fields "apiKey")).isOk = false →
      ∀ u, parseBaseUrl env (jsGet fields "baseUrl") = Except.ok u →
        parseConfig env (JSValue.record fields) =
          Except.ok ⟨env "BROWSERBASE_API_KEY",
            credentialFallback env fields "projectId" "BROWSERBASE_PROJECT_ID", u,
            boolField fields "promptOnStart", boolField fields "autoSyncSkills"⟩) ∧
    ((parseOptionalString env (jsGet fields "projectId")).isOk = false →
      ∀ u, parseBaseUrl env (jsGet fields "baseUrl") = Except.ok u →
        parseConfig env (JSValue.record fields) =
          Except.ok ⟨credentialFallback env fields "apiKey" "BROWSERBASE_API_KEY",
            env "BROWSERBASE_PROJECT_ID", u,
            boolField fields "promptOnStart", boolField fields "autoSyncSkills"⟩) ∧
    ((parseBaseUrl env (jsGet fields "baseUrl")).isOk = false →
      (parseConfig env (JSValue.record fields)).isOk = false) := by
  have hA : (parseOptionalString env (jsGet fields "apiKey")).isOk = false →
      credentialFallback env fields "apiKey" "BROWSERBASE_API_KEY" =
        env "BROWSERBASE_API_KEY" := by
    intro hfail
    unfold credentialFallback
    cases hpo : parseOptionalString env (jsGet fields "apiKey") with
    | ok o => rw [hpo] at hfail; cases hfail
    | error e => rfl
  have hPr : (parseOptionalString env (jsGet fields "projectId")).isOk = false →
      credentialFallback env fields "projectId" "BROWSERBASE_PROJECT_ID" =
        env "BROWSERBASE_PROJECT_ID" := by
    intro hfail
    unfold credentialFallback
    cases hpo : parseOptionalString env (jsGet fields "projectId") with
    | ok o => rw [hpo] at hfail; cases hfail
    | error e => rfl
  refine ⟨fun hfail u hu => ?_, fun hfail u hu => ?_, fun hfail => ?_⟩
  · rw [parseConfig_record, if_pos hkeys, hu, hA hfail]
    rfl
  · rw [parseConfig_record, if_pos hkeys, hu, hPr hfail]
    rfl
  · rw [parseConfig_record, if_pos hkeys]
    cases hb : parseBaseUrl env (jsGet fields "baseUrl") with
    | ok u => rw [hb] at hfail; cases hfail
    | error e => rfl

/-- Witness for C5: with only the direct credential variables set, an
`apiKey` placeholder naming an unset variable falls back to the direct
variable and the parse succeeds; the same failing placeholder in `baseUrl`
makes the parse fail. -/
theorem c5_witness :
    parseConfig envDirect
        (JSValue.record [("apiKey", JSValue.str "${MISSING_VAR}")]) =
      Except.ok ⟨envDirect "BROWSERBASE_API_KEY",
        credentialFallback envDirect [("apiKey", JSValue.str "${MISSING_VAR}")]
          "projectId" "BROWSERBASE_PROJECT_ID",
        DEFAULT_BASE_URL,
        boolField [("apiKey", JSValue.str "${MISSING_VAR}")] "promptOnStart",
        boolField [("apiKey", JSValue.str "${MISSING_VAR}")] "autoSyncSkills"⟩ ∧
    (parseConfig envDirect
        (JSValue.record [("baseUrl", JSValue.str "${MISSING_VAR}")])).isOk = false :=
  ⟨(c5_placeholder_failure_asymmetry envDirect
        [("apiKey", JSValue.str "${MISSING_VAR}")] (by decide)).1
      (by decide) DEFAULT_BASE_URL rfl,
   (c5_placeholder_failure_asymmetry envDirect
        [("baseUrl", JSValue.str "${MISSING_VAR}")] (by decide)).2.2
      (by decide)⟩

/-- C10 (implicit): the direct environment fallback for each credential does
no trimming or emptiness check — whatever string the variable holds,
including the empty string or whitespace, becomes a defined credential, and
being defined it wins in `mergeConfig` over any credential in the fallback
configuration; the apiKey and projectId assertions hold independently, each
under only its own variable being set and its own field being absent. -/
theorem c10_env_credential_untrimmed (env : Env) (fields : List (String × JSValue))
    (g : BrowserbaseConfig) (u : String)
    (hkeys : offendingKeys fields = [])
    (hu : parseBaseUrl env (jsGet fields "baseUrl") = Except.ok u) :
    (∀ sA, env "BROWSERBASE_API_KEY" = some sA →
      parseOptionalString env (jsGet fields "apiKey") = Except.ok none →
      parseConfig env (JSValue.record fields) =
        Except.ok ⟨some sA,
          credentialFallback env fields "projectId" "BROWSERBASE_PROJECT_ID", u,
          boolField fields "promptOnStart", boolField fields "autoSyncSkills"⟩ ∧
      (mergeConfig ⟨some sA,
          credentialFallback env fields "projectId" "BROWSERBASE_PROJECT_ID", u,
          boolField fields "promptOnStart", boolField fields "autoSyncSkills"⟩ g).apiKey =
        some sA) ∧
    (∀ sP, env "BROWSERBASE_PROJECT_ID" = some sP →
      parseOptionalString env (jsGet fields "projectId") = Except.ok none →
      parseConfig env (JSValue.record fields) =
        Except.ok ⟨credentialFallback env fields "apiKey" "BROWSERBASE_API_KEY",
          some sP, u,
          boolField fields "promptOnStart", boolField fields "autoSyncSkills"⟩ ∧
      (mergeConfig ⟨credentialFallback env fields "apiKey" "BROWSERBASE_API_KEY",
          some sP, u,
          boolField fields "promptOnStart", boolField fields "autoSyncSkills"⟩ g).projectId =
        some sP) := by
  constructor
  · intro sA hA habsA
    have hcfA : credentialFallback env fields "apiKey" "BROWSERBASE_API_KEY" = some sA := by
      unfold credentialFallback
      rw [habsA, hA]
    refine ⟨?_, by simp [mergeConfig, Option.orElse]⟩
    rw [parseConfig_record, if_pos hkeys, hu]
    show Except.ok _ = Except.ok _
    rw [hcfA]
  · intro sP hP habsP
    have hcfP : credentialFallback env fields "projectId" "BROWSERBASE_PROJECT_ID" =
        some sP := by
      unfold credentialFallback
      rw [habsP, hP]
    refine ⟨?_, by simp [mergeConfig, Option.orElse]⟩
    rw [parseConfig_record, if_pos hkeys, hu]
    show Except.ok _ = Except.ok _
    rw [hcfP]

/-- Witness for C10, each credential on its own: with only the API-key
variable set to the empty string and an empty record, the empty string is
kept and wins the merge; with only the project-id variable set to whitespace
and a record supplying just `apiKey`, the whitespace is kept and wins. -/
theorem c10_witness :
    (parseConfig envEmptyApiOnly (JSValue.record []) =
        Except.ok ⟨some "", none, DEFAULT_BASE_URL, none, none⟩ ∧
      (mergeConfig ⟨some "", none, DEFAULT_BASE_URL, none, none⟩
          ⟨some "real_key", some "real_proj", "v", none, none⟩).apiKey = some "") ∧
    (parseConfig envWsProjOnly (JSValue.record [("apiKey", JSValue.str "cfg_key")]) =
        Except.ok ⟨some "cfg_key", some "   ", DEFAULT_BASE_URL, none, none⟩ ∧
      (mergeConfig ⟨some "cfg_key", some "   ", DEFAULT_BASE_URL, none, none⟩
          ⟨some "real_key", some "real_proj", "v", none, none⟩).projectId = some "   ") :=
  ⟨(c10_env_credential_untrimmed envEmptyApiOnly []
      ⟨some "real_key", some "real_proj", "v", none, none⟩ DEFAULT_BASE_URL
      (by decide) rfl).1 "" rfl rfl,
   (c10_env_credential_untrimmed envWsProjOnly [("apiKey", JSValue.str "cfg_key")]
      ⟨some "real_key", some "real_proj", "v", none, none⟩ DEFAULT_BASE_URL
      (by decide) rfl).2 "   " rfl rfl⟩

/-- C6 fails as stated on inputs that themselves contain an asterisk: the
masked form of "*" is "****", and the character of the input does appear in
the output, against the claim's parenthetical. -/
theorem c6_counterexample :
    maskSecret (some "*") = "****" ∧
    '*' ∈ ("*" : String).data ∧ '*' ∈ (maskSecret (some "*")).data :=
  ⟨rfl, by decide, by decide⟩

/-- C6 (amended): `maskSecret` maps `undefined` and the empty string to
"not set"; every other input of length at most 8 to a string of asterisks of
length `max 4 length` (so at least 4 and at least the input length), an
output that depends on the input only through its length; and every longer
input to its first four characters, "...", and its last four characters. -/
theorem c6_amended_mask_contract :
    maskSecret none = "not set" ∧ maskSecret (some "") = "not set" ∧
    (∀ s : String, s ≠ "" → s.length ≤ 8 →
      (maskSecret (some s)).data.all (fun c => c = '*') = true ∧
      (maskSecret (some s)).length = max 4 s.length ∧
      4 ≤ (maskSecret (some s)).length ∧
      s.length ≤ (maskSecret (some s)).length ∧
      (∀ t : String, t.length = s.length → maskSecret (some t) = maskSecret (some s))) ∧
    (∀ s : String, 8 < s.length →
      maskSecret (some s) =
        String.mk (s.data.take 4) ++ "..." ++ String.mk (s.data.drop (s.length - 4))) := by
  have hlen0 : ∀ s : String, s.length = 0 → s = "" := by
    intro s h
    cases s with
    | mk data =>
        have hd : data = [] := List.length_eq_zero.mp h
        rw [hd]
  refine ⟨rfl, rfl, fun s h1 h2 => ?_, fun s h => ?_⟩
  · have hmask : maskSecret (some s) = String.mk (List.replicate (max 4 s.length) '*') := by
      simp [maskSecret, h1, h2]
    have hlen : (maskSecret (some s)).length = max 4 s.length := by
      rw [hmask]
      show (List.replicate (max 4 s.length) '*').length = max 4 s.length
      simp
    refine ⟨?_, hlen, ?_, ?_, ?_⟩
    · rw [hmask]
      show (List.replicate (max 4 s.length) '*').all (fun c => decide (c = '*')) = true
      rw [List.all_eq_true]
      intro c hc
      simp [List.mem_replicate] at hc
      simp [hc]
    · rw [hlen]; exact le_max_left _ _
    · rw [hlen]; exact le_max_right _ _
    · intro t ht
      have htne : t ≠ "" := by
        intro h0
        rw [h0] at ht
        exact h1 (hlen0 s ht.symm)
      have h2t : t.length ≤ 8 := by rw [ht]; exact h2
      have hmaskt : maskSecret (some t) = String.mk (List.replicate (max 4 t.length) '*') := by
        simp [maskSecret, htne, h2t]
      rw [hmask, hmaskt, ht]
  · have h1 : s ≠ "" := by
      intro h0
      rw [h0] at h
      cases h
    have h2 : ¬ s.length ≤ 8 := by omega
    simp [maskSecret, h1, h2]

/-- Witness for C6 (amended): the short input "abc" masks to all asterisks
of the right length, and the long test vector keeps its first and last four
characters around "...". -/
theorem c6_amended_witness :
    (maskSecret (some "abc")).data.all (fun c => c = '*') = true ∧
    (maskSecret (some "abc")).length = max 4 ("abc" : String).length ∧
    maskSecret (some "bb_live_abcdefghijklmnop") =
      String.mk (("bb_live_abcdefghijklmnop" : String).data.take 4) ++ "..." ++
        String.mk (("bb_live_abcdefghijklmnop" : String).data.drop
          (("bb_live_abcdefghijklmnop" : String).length - 4)) :=
  ⟨(c6_amended_mask_contract.2.2.1 "abc" (by decide) (by decide)).1,
   (c6_amended_mask_contract.2.2.1 "abc" (by decide) (by decide)).2.1,
   c6_amended_mask_contract.2.2.2 "bb_live_abcdefghijklmnop" (by decide)⟩

theorem replaceChar_append (p : Char) (r : List Char) (l₁ l₂ : List Char) :
    replaceChar p r (l₁ ++ l₂) = replaceChar p r l₁ ++ replaceChar p r l₂ := by
  induction l₁ with
  | nil => rfl
  | cons c rest ih => simp [replaceChar, ih]

theorem seqReplace_head (c : Char) :
    replaceChar '\r' ['\\', 'r'] (replaceChar '\n' ['\\', 'n']
      (replaceChar '"' ['\\', '"'] (if c = '\\' then ['\\', '\\'] else [c]))) =
    dotenvEscChar c := by
  by_cases h1 : c = '\\'
  · subst h1; decide
  by_cases h2 : c = '"'
  · subst h2; decide
  by_cases h3 : c = '\n'
  · subst h3; decide
  by_cases h4 : c = '\r'
  · subst h4; decide
  simp [replaceChar, dotenvEscChar, h1, h2, h3, h4]

/-- The four sequential substitutions of config-store.ts line 97, with the
backslash substitution innermost, coincide with one simultaneous escaping
pass: running the backslash step first means no later substitution ever
rewrites a backslash introduced by an earlier one. -/
theorem seqReplace_eq_onePass (l : List Char) :
    replaceChar '\r' ['\\', 'r'] (replaceChar '\n' ['\\', 'n']
      (replaceChar '"' ['\\', '"'] (replaceChar '\\' ['\\', '\\'] l))) =
    escapeOnePass l := by
  induction l with
  | nil => rfl
  | cons c rest ih =>
      show replaceChar '\r' ['\\', 'r'] (replaceChar '\n' ['\\', 'n']
        (replaceChar '"' ['\\', '"']
          ((if c = '\\' then ['\\', '\\'] else [c]) ++
            replaceChar '\\' ['\\', '\\'] rest))) = _
      rw [replaceChar_append, replaceChar_append, replaceChar_append,
        seqReplace_head c, ih]
      rfl

/-- C7: `dotenvEscape` returns the value unchanged when it contains no
whitespace, quote, hash, equals, backslash, newline or carriage return;
otherwise it wraps the value in double quotes with backslashes, double
quotes, newlines and carriage returns escaped, and because the backslash
substitution runs first the result equals a single simultaneous escaping
pass — nothing is double-escaped. -/
theorem c7_dotenv_escape (v : String) :
    ((∀ c ∈ v.data, jsRegexWhitespace c = false ∧ c ≠ '\'' ∧ c ≠ '"' ∧ c ≠ '#' ∧
        c ≠ '=' ∧ c ≠ '\\' ∧ c ≠ '\n' ∧ c ≠ '\r') → dotenvEscape v = v) ∧
    (needsDotenvQuoting v = true →
      dotenvEscape v = "\"" ++ String.mk (escapeOnePass v.data) ++ "\"") := by
  constructor
  · intro h
    have h1 : v.data.any (fun c => jsRegexWhitespace c || c = '"' || c = '\'' ||
        c = '#' || c = '=' || c = '\\') = false := by
      rw [List.any_eq_false]
      intro c hc
      rcases h c hc with ⟨hw, hq1, hq2, hh, he, hb, _, _⟩
      simp [hw, hq1, hq2, hh, he, hb]
    have h2 : v.data.contains '\n' = false := by
      rw [List.contains_eq_any_beq, List.any_eq_false]
      intro c hc
      rcases h c hc with ⟨_, _, _, _, _, _, hn, _⟩
      simp
      exact fun he => hn he.symm
    have h3 : v.data.contains '\r' = false := by
      rw [List.contains_eq_any_beq, List.any_eq_false]
      intro c hc
      rcases h c hc with ⟨_, _, _, _, _, _, _, hr⟩
      simp
      exact fun he => hr he.symm
    have hq : needsDotenvQuoting v = false := by
      unfold needsDotenvQuoting
      rw [h1, h2, h3]
      rfl
    simp [dotenvEscape, hq]
  · intro h
    simp only [dotenvEscape, h, if_true]
    rw [seqReplace_eq_onePass]

/-- Witness for C7: a plain token is unchanged; a value with a space is
quoted and equals the one-pass escape. -/
theorem c7_witness :
    dotenvEscape "bb_live_abc123" = "bb_live_abc123" ∧
    dotenvEscape "hello world" =
      "\"" ++ String.mk (escapeOnePass ("hello world" : String).data) ++ "\"" :=
  ⟨(c7_dotenv_escape "bb_live_abc123").1 (by decide),
   (c7_dotenv_escape "hello world").2 (by decide)⟩

/-- C8: `hasSkills` is a completeness probe: true exactly when every file of
the expected set exists at its expected path — in the per-file design all
five paths of `expectedSkillFiles`, in archive mode the SKILL.md marker of
every required skill subdirectory — and false as soon as any expected file
is missing. -/
theorem c8_hasSkills_iff_complete (fsExists : String → Bool) (targetRoot : String) :
    (hasBrowserbaseSkills fsExists targetRoot = true ↔
      ∀ p ∈ expectedSkillFiles targetRoot, fsExists p = true) ∧
    (hasBrowserbaseSkillsArchive fsExists targetRoot = true ↔
      ∀ dir ∈ REQUIRED_SKILL_DIRS,
        fsExists (pathJoin (pathJoin targetRoot dir) "SKILL.md") = true) ∧
    (∀ p ∈ expectedSkillFiles targetRoot, fsExists p = false →
      hasBrowserbaseSkills fsExists targetRoot = false) := by
  refine ⟨List.all_eq_true, List.all_eq_true, ?_⟩
  intro p hp hfalse
  cases hh : hasBrowserbaseSkills fsExists targetRoot with
  | false => rfl
  | true =>
      have := (List.all_eq_true.mp hh) p hp
      rw [hfalse] at this
      cases this

/-- Witness for C8: with every path present the probe is true; with one of
the five expected files missing it is false. -/
theorem c8_witness :
    hasBrowserbaseSkills (fun _ => true) "r" = true ∧
    hasBrowserbaseSkills (fun p => !(p == "r/functions/SKILL.md")) "r" = false :=
  ⟨(c8_hasSkills_iff_complete (fun _ => true) "r").1.mpr (fun p _ => rfl),
   (c8_hasSkills_iff_complete (fun p => !(p == "r/functions/SKILL.md")) "r").2.2
     "r/functions/SKILL.md" (by decide) (by decide)⟩

/-- The sync loop run on a list splitting as `pre ++ bad :: post`, where
every entry of `pre` fetches ok with non-blank body and `bad`'s fetch is not
ok: it stops at `bad` with the HTTP error, and the filesystem holds exactly
the destinations of `pre` on top of what pre-existed. -/
theorem syncLoop_failure (fetchImpl : String → Response) (ref targetRoot : String)
    (pre : List (String × String)) (bad : String × String) (post : List (String × String))
    (fs : FileSystem) (written : List String)
    (hpre : ∀ e ∈ pre, (fetchImpl (rawSkillUrl ref e.1)).ok = true ∧
      jsTrim (fetchImpl (rawSkillUrl ref e.1)).body ≠ "")
    (hbad : (fetchImpl (rawSkillUrl ref bad.1)).ok = false) :
    syncLoop fetchImpl ref targetRoot (pre ++ bad :: post) fs written =
      ((pre.map (fun e => pathJoin targetRoot e.2)).reverse ++ fs,
        Except.error ("HTTP " ++ toString (fetchImpl (rawSkillUrl ref bad.1)).status ++
          " for " ++ rawSkillUrl ref bad.1)) := by
  induction pre generalizing fs written with
  | nil =>
      simp only [List.nil_append, List.map_nil, List.reverse_nil, syncLoop,
        downloadText, hbad, Bool.not_false, if_true]
  | cons e pre ih =>
      obtain ⟨hok, hbody⟩ := hpre e (List.mem_cons_self e pre)
      have hpre2 : ∀ x ∈ pre, (fetchImpl (rawSkillUrl ref x.1)).ok = true ∧
          jsTrim (fetchImpl (rawSkillUrl ref x.1)).body ≠ "" :=
        fun x hx => hpre x (List.mem_cons_of_mem e hx)
      show syncLoop fetchImpl ref targetRoot (e :: (pre ++ bad :: post)) fs written = _
      simp only [syncLoop, downloadText, hok, Bool.not_true, Bool.false_eq_true,
        if_false, if_neg hbody]
      rw [ih (pathJoin targetRoot e.2 :: fs) (written ++ [pathJoin targetRoot e.2]) hpre2]
      simp [List.append_assoc]

/-- C3 (amended): for every sync invocation — any ref, target directory and
pre-existing filesystem — when the fetch of one of the five files fails with
a non-ok status while every earlier file fetched fine, the sync rejects with
an error message containing the HTTP status code, and the files newly
written beneath the target directory are exactly the destinations of the
entries before the failing one (none when the first fetch fails). -/
theorem c3_amended_prefix_written (fetchImpl : String → Response) (targetRoot : String)
    (fs : FileSystem) (ref : Option String) (pre : List (String × String))
    (bad : String × String) (post : List (String × String))
    (hsplit : SKILL_FILE_MAP = pre ++ bad :: post)
    (hpre : ∀ e ∈ pre, (fetchImpl (rawSkillUrl (normalizeRef ref) e.1)).ok = true ∧
      jsTrim (fetchImpl (rawSkillUrl (normalizeRef ref) e.1)).body ≠ "")
    (hbad : (fetchImpl (rawSkillUrl (normalizeRef ref) bad.1)).ok = false) :
    syncBrowserbaseSkills fetchImpl targetRoot ref fs =
      ((pre.map (fun e => pathJoin targetRoot e.2)).reverse ++ fs,
        Except.error ("HTTP " ++
          toString (fetchImpl (rawSkillUrl (normalizeRef ref) bad.1)).status ++
          " for " ++ rawSkillUrl (normalizeRef ref) bad.1)) ∧
    ∃ s t, ("HTTP " ++ toString (fetchImpl (rawSkillUrl (normalizeRef ref) bad.1)).status ++
        " for " ++ rawSkillUrl (normalizeRef ref) bad.1).data =
      s ++ (toString (fetchImpl (rawSkillUrl (normalizeRef ref) bad.1)).status).data ++ t := by
  constructor
  · have hloop := syncLoop_failure fetchImpl (normalizeRef ref) targetRoot pre bad post fs []
      hpre hbad
    simp only [syncBrowserbaseSkills, hsplit, hloop]
  · refine ⟨("HTTP " : String).data,
      (" for " ++ rawSkillUrl (normalizeRef ref) bad.1).data, ?_⟩
    simp [String.data_append]

/-- C3 fails as stated on the per-file implementation: with a fetch stub
that 404s the third file, the call rejects with a message containing the
status code, but the first two destination files are left newly written
beneath the target directory, which started empty. -/
theorem c3_counterexample :
    syncBrowserbaseSkills fetchFailThird "root" (some "main") [] =
      (["root/browser-automation/EXAMPLES.md", "root/browser-automation/SKILL.md"],
        Except.error ("HTTP 404 for " ++ badThirdUrl)) ∧
    (syncBrowserbaseSkills fetchFailThird "root" (some "main") []).1 ≠ [] := by
  constructor
  · rfl
  · intro h
    cases h

/-- Witness for C3 (amended) at the concrete failing stub: the split of the
file map around the third entry satisfies the hypotheses and the sync leaves
exactly the first two destinations written. -/
theorem c3_amended_witness :
    syncBrowserbaseSkills fetchFailThird "root" (some "main") [] =
      (([("skills/browser-automation/SKILL.md", "browser-automation/SKILL.md"),
         ("skills/browser-automation/EXAMPLES.md", "browser-automation/EXAMPLES.md")].map
          (fun e => pathJoin "root" e.2)).reverse ++ [],
        Except.error ("HTTP " ++
          toString (fetchFailThird (rawSkillUrl "main"
            "skills/browser-automation/REFERENCE.md")).status ++
          " for " ++ rawSkillUrl "main" "skills/browser-automation/REFERENCE.md")) :=
  (c3_amended_prefix_written fetchFailThird "root" [] (some "main")
    [("skills/browser-automation/SKILL.md", "browser-automation/SKILL.md"),
     ("skills/browser-automation/EXAMPLES.md", "browser-automation/EXAMPLES.md")]
    ("skills/browser-automation/REFERENCE.md", "browser-automation/REFERENCE.md")
    [("skills/browser-automation/setup.json", "browser-automation/setup.json"),
     ("skills/functions/SKILL.md", "functions/SKILL.md")]
    rfl (by decide) (by decide)).1

end Browserbase
